import Mathlib

/-!
Verification of the GTG (Getting Things GNOME) entity-store core against its
specification.  The Python modules `GTG/core/tasks2.py`, `GTG/core/tags2.py`
and `GTG/core/datastore2.py` are shallowly embedded below: pure string
manipulation becomes functions on `List Char`, the mutable task/tag trees
become inductive rose trees transformed functionally (with the ancestor
context threaded explicitly where the Python code follows parent
back-pointers), and fallible operations return an error component mirroring
the Python exceptions (`KeyError`, `AttributeError`, ...).
-/

/-- Strings are modelled as lists of characters, so that the character-level
scanning semantics of Python's `str.replace` can be stated exactly. -/
abbrev Str := List Char

/-!
## Python string primitives

`pyReplace pat rep s` embeds Python's `s.replace(pat, rep)` for a non-empty
pattern (all occurrences): scan left to right; when `pat` matches at the
current position, emit `rep` and continue after the match (non-overlapping);
otherwise keep one character and move on.  The helper `pyRepAux` carries the
number of still-to-skip characters of the last match so that the recursion is
structural on the string (and therefore evaluates inside the kernel).
-/

/-- Helper for `pyReplace`: in state `k+1`, the current character belongs to an
already-replaced match and is skipped; in state `0` the scanner looks for the
pattern at the current position. -/
def pyRepAux (pat rep : Str) : Nat → Str → Str
  | _, [] => []
  | k + 1, _ :: s => pyRepAux pat rep k s
  | 0, a :: s =>
    if pat ≠ [] ∧ pat <+: (a :: s) then
      rep ++ pyRepAux pat rep (pat.length - 1) s
    else
      a :: pyRepAux pat rep 0 s

/-- Semantics of Python's `str.replace` for a non-empty pattern: left-to-right,
non-overlapping replacement of every occurrence of `pat` by `rep`.  (For the
empty pattern it is the identity; both patterns used by the codec are
non-empty.) -/
def pyReplace (pat rep : Str) (s : Str) : Str := pyRepAux pat rep 0 s

/-- Decidable occurrence test: `containsSub pat s` is true when `pat` occurs as
a contiguous substring of `s`. -/
def containsSub (pat : Str) : Str → Bool
  | [] => decide (pat = [])
  | a :: s => decide (pat <+: (a :: s)) || containsSub pat s

theorem pyRepAux_skip (pat rep : Str) :
    ∀ (k : Nat) (s : Str), pyRepAux pat rep k s = pyRepAux pat rep 0 (s.drop k)
  | 0, s => by cases s <;> rfl
  | k + 1, [] => rfl
  | k + 1, a :: s => by
    rw [List.drop_succ_cons]
    exact pyRepAux_skip pat rep k s

theorem pyReplace_nil (pat rep : Str) : pyReplace pat rep [] = [] := rfl

theorem pyReplace_cons_of_ne (pat rep : Str) (a : Char) (s : Str)
    (h : ¬ pat <+: (a :: s)) :
    pyReplace pat rep (a :: s) = a :: pyReplace pat rep s := by
  show pyRepAux pat rep 0 (a :: s) = a :: pyRepAux pat rep 0 s
  conv_lhs => rw [pyRepAux]
  simp [h]

theorem pyReplace_cons_of_match (pat rep : Str) (a : Char) (s : Str)
    (hne : pat ≠ []) (h : pat <+: (a :: s)) :
    pyReplace pat rep (a :: s) = rep ++ pyReplace pat rep ((a :: s).drop pat.length) := by
  show pyRepAux pat rep 0 (a :: s) = rep ++ pyRepAux pat rep 0 ((a :: s).drop pat.length)
  conv_lhs => rw [pyRepAux]
  rw [if_pos ⟨hne, h⟩, pyRepAux_skip]
  have hlen : 0 < pat.length := List.length_pos.mpr hne
  have hdrop : (a :: s).drop pat.length = s.drop (pat.length - 1) := by
    cases hp : pat.length with
    | zero => omega
    | succ n => simp [List.drop_succ_cons]
  rw [hdrop]

theorem containsSub_cons (pat : Str) (a : Char) (s : Str) :
    containsSub pat (a :: s) = (decide (pat <+: (a :: s)) || containsSub pat s) := rfl

/-!
## XML content escaping (C1)

`TaskStore.to_xml` (tasks2.py lines 373-376) wraps the task content in a CDATA
block after escaping the CDATA terminator:

    text = text.replace(']]>', ']]&gt;')

`TaskStore.from_xml` (tasks2.py lines 306-309) reads the CDATA text back and
un-escapes:

    content = content.replace(']]&gt;', ']]>')

The CDATA block itself transports the escaped text verbatim, so the content
part of the codec is exactly this pair of replacements.
-/

/-- CDATA terminator sequence `]]>`. -/
def cdataEnd : Str := [']', ']', '>']

/-- Escaped form `]]&gt;` used inside the CDATA block. -/
def cdataEsc : Str := [']', ']', '&', 'g', 't', ';']

/-- Content encoding performed by `TaskStore.to_xml` (tasks2.py line 375):
replace every `]]>` with `]]&gt;`. -/
def to_xml_content (text : Str) : Str := pyReplace cdataEnd cdataEsc text

/-- Content decoding performed by `TaskStore.from_xml` (tasks2.py line 308):
replace every `]]&gt;` with `]]>`. -/
def from_xml_content (text : Str) : Str := pyReplace cdataEsc cdataEnd text

example : to_xml_content (']' :: ']' :: '>' :: ['x']) = cdataEsc ++ ['x'] := by decide

example : from_xml_content (to_xml_content cdataEsc) = cdataEnd := by decide

example : from_xml_content (to_xml_content [']', ']', '>', ']', ']', '>']) =
    [']', ']', '>', ']', ']', '>'] := by decide

theorem not_cdataEsc_head_of_contains (a : Char) (s : Str)
    (h : containsSub cdataEsc (a :: s) = false) : ¬ cdataEsc <+: (a :: s) := by
  rw [containsSub_cons] at h
  simp only [Bool.or_eq_false_iff, decide_eq_false_iff_not] at h
  exact h.1

theorem containsSub_tail (pat : Str) (a : Char) (s : Str)
    (h : containsSub pat (a :: s) = false) : containsSub pat s = false := by
  rw [containsSub_cons] at h
  simp only [Bool.or_eq_false_iff] at h
  exact h.2

theorem chainStep (c : Char) (hc : c ≠ ']') (q u : Str)
    (h : (c :: q) <+: to_xml_content u) :
    ∃ u', u = c :: u' ∧ q <+: to_xml_content u' := by
  match u with
  | [] =>
    rw [show to_xml_content [] = [] from rfl, List.prefix_nil] at h
    exact absurd h (by simp)
  | a :: t =>
    by_cases hm : cdataEnd <+: (a :: t)
    · rw [show to_xml_content (a :: t) = pyReplace cdataEnd cdataEsc (a :: t) from rfl,
        pyReplace_cons_of_match _ _ _ _ (by simp [cdataEnd]) hm] at h
      simp [cdataEsc, List.cons_prefix_cons] at h
      exact absurd h.1 hc
    · rw [show to_xml_content (a :: t) = pyReplace cdataEnd cdataEsc (a :: t) from rfl,
        pyReplace_cons_of_ne _ _ _ _ hm] at h
      rw [List.cons_prefix_cons] at h
      exact ⟨t, by rw [h.1], h.2⟩

theorem chainStepBracket (u : Str)
    (h : [']', '&', 'g', 't', ';'] <+: to_xml_content u) :
    ∃ u', u = ']' :: u' ∧ ['&', 'g', 't', ';'] <+: to_xml_content u' := by
  match u with
  | [] =>
    rw [show to_xml_content [] = [] from rfl, List.prefix_nil] at h
    exact absurd h (by simp)
  | a :: t =>
    by_cases hm : cdataEnd <+: (a :: t)
    · rw [show to_xml_content (a :: t) = pyReplace cdataEnd cdataEsc (a :: t) from rfl,
        pyReplace_cons_of_match _ _ _ _ (by simp [cdataEnd]) hm] at h
      simp [cdataEsc, List.cons_prefix_cons] at h
    · rw [show to_xml_content (a :: t) = pyReplace cdataEnd cdataEsc (a :: t) from rfl,
        pyReplace_cons_of_ne _ _ _ _ hm] at h
      rw [List.cons_prefix_cons] at h
      exact ⟨t, by rw [h.1], h.2⟩

theorem esc_in_encoded (u : Str) (h : cdataEsc <+: to_xml_content u) :
    cdataEnd <+: u ∨ cdataEsc <+: u := by
  match u with
  | [] =>
    rw [show to_xml_content [] = [] from rfl, List.prefix_nil] at h
    exact absurd h (by simp [cdataEsc])
  | a :: t =>
    by_cases hm : cdataEnd <+: (a :: t)
    · exact Or.inl hm
    · rw [show to_xml_content (a :: t) = pyReplace cdataEnd cdataEsc (a :: t) from rfl,
        pyReplace_cons_of_ne _ _ _ _ hm] at h
      rw [show cdataEsc = ']' :: [']', '&', 'g', 't', ';'] from rfl,
        List.cons_prefix_cons] at h
      obtain ⟨ha, h1⟩ := h
      obtain ⟨t1, ht1, h2⟩ := chainStepBracket t h1
      obtain ⟨t2, ht2, h3⟩ := chainStep '&' (by decide) _ t1 h2
      obtain ⟨t3, ht3, h4⟩ := chainStep 'g' (by decide) _ t2 h3
      obtain ⟨t4, ht4, h5⟩ := chainStep 't' (by decide) _ t3 h4
      obtain ⟨t5, ht5, _⟩ := chainStep ';' (by decide) _ t4 h5
      refine Or.inr ?_
      subst ht1 ht2 ht3 ht4 ht5
      rw [← ha]
      simp [cdataEsc, List.cons_prefix_cons]

theorem content_roundtrip_aux :
    ∀ (n : Nat) (u : Str), u.length ≤ n → containsSub cdataEsc u = false →
      from_xml_content (to_xml_content u) = u := by
  intro n
  induction n with
  | zero =>
    intro u hlen _
    rw [List.length_eq_zero.mp (Nat.le_zero.mp hlen)]
    rfl
  | succ n ih =>
    intro u hlen hc
    match u with
    | [] => rfl
    | a :: t =>
      by_cases hm : cdataEnd <+: (a :: t)
      · obtain ⟨rest, hrest⟩ := hm
        have hu : a :: t = ']' :: ']' :: '>' :: rest := by
          rw [← hrest]; rfl
        rw [show to_xml_content (a :: t) = pyReplace cdataEnd cdataEsc (a :: t) from rfl,
          pyReplace_cons_of_match _ _ _ _ (by simp [cdataEnd]) ⟨rest, hrest⟩]
        have hdrop : (a :: t).drop cdataEnd.length = rest := by
          rw [hu]; rfl
        rw [hdrop]
        rw [show from_xml_content (cdataEsc ++ pyReplace cdataEnd cdataEsc rest) =
              pyReplace cdataEsc cdataEnd
                (cdataEsc ++ pyReplace cdataEnd cdataEsc rest) from rfl]
        have hesc : cdataEsc <+: cdataEsc ++ pyReplace cdataEnd cdataEsc rest :=
          List.prefix_append _ _
        have hcons : cdataEsc ++ pyReplace cdataEnd cdataEsc rest =
            ']' :: (']' :: '&' :: 'g' :: 't' :: ';' :: pyReplace cdataEnd cdataEsc rest) := rfl
        rw [hcons, pyReplace_cons_of_match _ _ _ _ (by simp [cdataEsc]) (hcons ▸ hesc)]
        rw [show (']' :: (']' :: '&' :: 'g' :: 't' :: ';' ::
              pyReplace cdataEnd cdataEsc rest)).drop cdataEsc.length =
            pyReplace cdataEnd cdataEsc rest from rfl]
        have hrlen : rest.length ≤ n := by
          have : (a :: t).length = rest.length + 3 := by rw [hu]; simp
          omega
        have hcrest : containsSub cdataEsc rest = false := by
          rw [hu] at hc
          exact containsSub_tail _ _ _ (containsSub_tail _ _ _ (containsSub_tail _ _ _ hc))
        have := ih rest hrlen hcrest
        rw [show pyReplace cdataEsc cdataEnd (pyReplace cdataEnd cdataEsc rest) =
              from_xml_content (to_xml_content rest) from rfl, this]
        exact hrest
      · rw [show to_xml_content (a :: t) = pyReplace cdataEnd cdataEsc (a :: t) from rfl,
          pyReplace_cons_of_ne _ _ _ _ hm]
        have hnoesc : ¬ cdataEsc <+: (a :: pyReplace cdataEnd cdataEsc t) := by
          intro hpre
          have : cdataEsc <+: to_xml_content (a :: t) := by
            rw [show to_xml_content (a :: t) = pyReplace cdataEnd cdataEsc (a :: t) from rfl,
              pyReplace_cons_of_ne _ _ _ _ hm]
            exact hpre
          rcases esc_in_encoded _ this with h1 | h2
          · exact hm h1
          · exact not_cdataEsc_head_of_contains _ _ hc h2
        rw [show from_xml_content (a :: pyReplace cdataEnd cdataEsc t) =
              pyReplace cdataEsc cdataEnd (a :: pyReplace cdataEnd cdataEsc t) from rfl,
          pyReplace_cons_of_ne _ _ _ _ hnoesc]
        have hlent : t.length ≤ n := by
          have : (a :: t).length = t.length + 1 := by simp
          omega
        have := ih t hlent (containsSub_tail _ _ _ hc)
        rw [show pyReplace cdataEsc cdataEnd (pyReplace cdataEnd cdataEsc t) =
              from_xml_content (to_xml_content t) from rfl, this]

/-- C1 (counterexample): the content round-trip claimed for all strings fails
on a string that already contains the escaped form `]]&gt;`: the encoder
leaves it unchanged (it contains no literal `]]>`), and the decoder then turns
it into `]]>`, so decode(encode(text)) ≠ text. -/
theorem C1_counterexample :
    from_xml_content (to_xml_content cdataEsc) ≠ cdataEsc := by decide

/-- C1 (amended): for every content string that does not already contain the
escaped form `]]&gt;` — in particular for every string containing the CDATA
terminator `]]>` any number of times — decoding the encoded content restores
the original: from_xml_content (to_xml_content text) = text. -/
theorem C1_content_roundtrip (text : Str)
    (h : containsSub cdataEsc text = false) :
    from_xml_content (to_xml_content text) = text :=
  content_roundtrip_aux text.length text (Nat.le_refl _) h

/-- C1 witness: the amended round-trip evaluated on the concrete string
`x]]>]]>y`, which contains the CDATA terminator twice. -/
theorem C1_content_roundtrip_witness :
    containsSub cdataEsc ['x', ']', ']', '>', ']', ']', '>', 'y'] = false ∧
      from_xml_content (to_xml_content ['x', ']', ']', '>', ']', ']', '>', 'y']) =
        ['x', ']', ']', '>', ']', ']', '>', 'y'] :=
  ⟨by decide, C1_content_roundtrip ['x', ']', ']', '>', ']', ']', '>', 'y'] (by decide)⟩

/-!
## Task data model

`Task2` (tasks2.py lines 69-205) owns its children and a back-reference to its
parent.  The child-owning side is embedded as a rose tree `TTree`; the parent
back-references are threaded through the operations as an explicit list of the
ancestors' field records (innermost ancestor first), since the Python
operations only ever follow the parent pointers upwards.
-/

/-- Status for a task (tasks2.py lines 48-53). -/
inductive Status where
  | ACTIVE
  | DONE
  | DISMISSED
deriving DecidableEq, Repr

/-- Modelled from the spec: the `Date` primitive of `GTG/core/dates.py` is not
under src/.  Section 3 of the spec describes it as either a concrete timestamp
or one of a small closed set of symbolic fuzzy markers (no-date, today, now,
someday, soon), with a total order in which concrete dates compare by instant
and the symbolic markers sit at fixed positions. -/
inductive GDate where
  | noDate
  | today
  | now
  | soon
  | someday
  | concrete (d : Nat)
deriving DecidableEq, Repr

/-- Modelled from the spec: a `Date` is absent ("no date") exactly when it is
the no-date marker; Python treats that value as falsy (`if not value`). -/
def GDate.truthy : GDate → Bool
  | .noDate => false
  | _ => true

/-- Modelled from the spec: the symbolic markers are the fuzzy dates; a
concrete timestamp is not fuzzy. -/
def GDate.isFuzzy : GDate → Bool
  | .concrete _ => false
  | _ => true

/-- Modelled from the spec: coarse band of the total order; `someday` sorts
after every dated value and `no-date` after `someday`. -/
def GDate.tier : GDate → Nat
  | .someday => 1
  | .noDate => 2
  | _ => 0

/-- Modelled from the spec: the instant a dated value compares by, relative to
a reference day `td` (the current day): `today` and `now` fall on `td`, `soon`
a fixed offset after it, and a concrete date on its own day. -/
def GDate.instant (td : Nat) : GDate → Nat
  | .soon => td + 15
  | .concrete d => d
  | _ => td

/-- Modelled from the spec: the total order on dates, parameterized by the
reference day `td`. -/
def dateLtB (td : Nat) (a b : GDate) : Bool :=
  a.tier < b.tier || (a.tier = b.tier && a.instant td < b.instant td)

/-- A tag (tags2.py lines 35-49): identifier, name, and owned child tags. -/
inductive GTag where
  | node (id : Nat) (name : Str) (children : List GTag)

/-- Name of a tag. -/
def GTag.name : GTag → Str
  | .node _ n _ => n

/-- Child tags of a tag. -/
def GTag.children : GTag → List GTag
  | .node _ _ cs => cs

/-- Scalar fields of a `Task2` (tasks2.py lines 72-85); the `children` list
and the `parent` back-reference live in the surrounding tree structure. -/
structure TaskRec where
  id : Nat := 0
  title : Str := []
  status : Status := .ACTIVE
  closed : GDate := .noDate
  due : GDate := .noDate
  tags : List GTag := []
  content : Str := []

/-- A task subtree: the task's own fields and its owned children. -/
inductive TTree where
  | node (rec : TaskRec) (children : List TTree)

/-- Field record of the root task of a subtree. -/
def TTree.fields : TTree → TaskRec
  | .node r _ => r

/-- Children of the root task of a subtree. -/
def TTree.kids : TTree → List TTree
  | .node _ cs => cs

/-!
## Status transitions (C4, C5)

`Task2.toggle_status` (tasks2.py lines 88-102):

    if self.status is Status.ACTIVE:
        self.status = Status.DONE
        self.date_closed = Date.today()
    else:
        self.status = Status.ACTIVE
        self.date_closed = Date.no_date()
        if self.parent and self.parent.status is not Status.ACTIVE:
            self.parent.toggle_status(propagate=False)
    if propagate:
        for child in self.children:
            child.toggle_status()

A call with `propagate=False` runs only the first half and can recurse further
up the ancestor chain; `toggleUpNE` embeds that chain (`p` is the task the
non-propagating call is made on, `anc` its ancestors).
-/

/-- Embedding of `toggle_status(propagate=False)` on a task `p` with ancestor
records `anc`: flip `p`; when `p` leaves the Active state towards Active, the
non-Active immediate parent is toggled the same way, recursively. -/
def toggleUpNE (p : TaskRec) (anc : List TaskRec) : TaskRec × List TaskRec :=
  if p.status = .ACTIVE then
    ({ p with status := .DONE, closed := .today }, anc)
  else
    let p' := { p with status := .ACTIVE, closed := .noDate }
    match anc with
    | [] => (p', [])
    | q :: rest =>
      if q.status ≠ .ACTIVE then
        let (q', rest') := toggleUpNE q rest
        (p', q' :: rest')
      else
        (p', q :: rest)

mutual

/-- Embedding of `Task2.toggle_status` on the subtree `t` whose ancestor
records are `anc` (innermost first).  Returns the updated ancestor records
(the else-branch can toggle ancestors) and the updated subtree. -/
def toggleT (anc : List TaskRec) (t : TTree) (propagate : Bool) :
    List TaskRec × TTree :=
  match t with
  | .node r cs =>
    let ra :=
      if r.status = .ACTIVE then
        ({ r with status := .DONE, closed := .today }, anc)
      else
        let r' := { r with status := .ACTIVE, closed := .noDate }
        match anc with
        | [] => (r', [])
        | q :: rest =>
          if q.status ≠ .ACTIVE then
            let (q', rest') := toggleUpNE q rest
            (r', q' :: rest')
          else
            (r', q :: rest)
    if propagate then
      match toggleL (ra.1 :: ra.2) cs with
      | (r2 :: anc2, cs2) => (anc2, .node r2 cs2)
      | ([], cs2) => ([], .node ra.1 cs2)
    else
      (ra.2, .node ra.1 cs)

/-- Embedding of the `for child in self.children: child.toggle_status()` loop:
the children are toggled in order, each seeing the context (the toggled task
and its ancestors) as left by the previous child. -/
def toggleL (ctx : List TaskRec) (cs : List TTree) : List TaskRec × List TTree :=
  match cs with
  | [] => (ctx, [])
  | c :: rest =>
    let (ctx1, c1) := toggleT ctx c true
    let (ctx2, rest2) := toggleL ctx1 rest
    (ctx2, c1 :: rest2)

end

mutual

/-- Embedding of `Task2.dismiss` (tasks2.py lines 105-109): set the status to
Dismissed and dismiss every child. -/
def dismissT : TTree → TTree
  | .node r cs => .node { r with status := .DISMISSED } (dismissL cs)

/-- Dismissal of a list of subtrees, in order. -/
def dismissL : List TTree → List TTree
  | [] => []
  | c :: cs => dismissT c :: dismissL cs

end

mutual

/-- Predicate: every task in the subtree is Active. -/
def allActiveT : TTree → Bool
  | .node r cs => r.status = .ACTIVE && allActiveL cs

/-- Predicate: every task in a list of subtrees is Active. -/
def allActiveL : List TTree → Bool
  | [] => true
  | c :: cs => allActiveT c && allActiveL cs

end

mutual

/-- Expected result of the Done cascade: every task marked Done with
`date_closed` set to today. -/
def doneT : TTree → TTree
  | .node r cs => .node { r with status := .DONE, closed := .today } (doneL cs)

/-- Done cascade on a list of subtrees. -/
def doneL : List TTree → List TTree
  | [] => []
  | c :: cs => doneT c :: doneL cs

end

theorem toggle_allActive :
    ∀ t : TTree, ∀ anc : List TaskRec, allActiveT t = true →
      toggleT anc t true = (anc, doneT t) := by
  intro t
  induction t using TTree.rec
    (motive_2 := fun cs => ∀ ctx : List TaskRec, allActiveL cs = true →
      toggleL ctx cs = (ctx, doneL cs)) with
  | node r cs ih =>
    intro anc hact
    rw [allActiveT] at hact
    simp only [Bool.and_eq_true, decide_eq_true_eq] at hact
    rw [toggleT]
    simp only [hact.1, if_true, if_pos rfl]
    rw [ih _ hact.2]
    rfl
  | nil => rfl
  | cons c cs ihc ihcs =>
    rename_i ctx hact
    rw [allActiveL] at hact
    simp only [Bool.and_eq_true] at hact
    rw [toggleL, ihc _ hact.1]
    dsimp only
    rw [ihcs _ hact.2]
    rfl

/-- Concrete tree for the C4 counterexample: an Active root task with a single
child that is already Done. -/
def c4tree : TTree :=
  .node { status := .ACTIVE } [.node { status := .DONE } []]

/-- C4 (counterexample): toggling an Active task whose child is already Done
does not mark the tree Done: the child is toggled back to Active, which
re-toggles the (now Done, hence non-Active) parent back to Active, so the
toggled task itself ends up Active, contradicting the claim that its status
becomes Done and that every descendant becomes Done regardless of prior
status. -/
theorem C4_counterexample :
    c4tree.fields.status = Status.ACTIVE ∧
      (toggleT [] c4tree true).2.fields.status = Status.ACTIVE ∧
      (toggleT [] c4tree true).2.fields.status ≠ Status.DONE := by decide

/-- C4 (amended): calling toggle_status (with propagate defaulting to true) on
a task whose status is Active and all of whose descendants are Active sets its
status to Done, sets its date_closed to today, and recursively marks all of
its descendants Done with date_closed today; the ancestor records are left
untouched.  (When a descendant is already Done or Dismissed the cascade
toggles it back to Active instead, as the counterexample shows.) -/
theorem C4_toggle_done_cascade (t : TTree) (anc : List TaskRec)
    (h : allActiveT t = true) :
    toggleT anc t true = (anc, doneT t) :=
  toggle_allActive t anc h

/-- C4 witness: the amended cascade evaluated on a concrete two-level
all-Active tree. -/
theorem C4_toggle_done_cascade_witness :
    allActiveT (.node { status := .ACTIVE } [.node { status := .ACTIVE } []]) = true ∧
      toggleT [] (.node { status := .ACTIVE } [.node { status := .ACTIVE } []]) true =
        ([], doneT (.node { status := .ACTIVE } [.node { status := .ACTIVE } []])) :=
  ⟨by decide, C4_toggle_done_cascade _ [] (by decide)⟩

/-- Status of the task at a given child-index path of a subtree (`none` when
the path leads nowhere).  Harness for stating where a `dismiss` or
`toggle_status` call is addressed. -/
def statusAt : TTree → List Nat → Option Status
  | .node r _, [] => some r.status
  | .node _ cs, i :: rest =>
    match cs[i]? with
    | some c => statusAt c rest
    | none => none

/-- Replacement of the `i`-th element of a list by `f` applied to it. -/
def updateAt (i : Nat) (f : TTree → TTree) : List TTree → List TTree
  | [] => []
  | c :: cs =>
    match i with
    | 0 => f c :: cs
    | j + 1 => c :: updateAt j f cs

/-- Dismissal of the task addressed by a child-index path (a `dismiss` call on
that task); an invalid path addresses no task and dismisses nothing. -/
def dismissAt (t : TTree) (path : List Nat) : TTree :=
  match path, t with
  | [], t => dismissT t
  | i :: rest, .node r cs => .node r (updateAt i (fun c => dismissAt c rest) cs)

theorem dismissL_eq_map : ∀ cs : List TTree, dismissL cs = cs.map dismissT
  | [] => rfl
  | c :: cs => by rw [dismissL, dismissL_eq_map cs, List.map_cons]

theorem statusAt_dismissT :
    ∀ (t : TTree) (pos : List Nat),
      statusAt (dismissT t) pos = (statusAt t pos).map (fun _ => Status.DISMISSED) := by
  intro t
  induction t using TTree.rec
    (motive_2 := fun cs => ∀ (i : Nat) (pos : List Nat),
      (match (dismissL cs)[i]? with
       | some c => statusAt c pos
       | none => none) =
      (match cs[i]? with
       | some c => statusAt c pos
       | none => none).map (fun _ => Status.DISMISSED)) with
  | node r cs ih =>
    intro pos
    match pos with
    | [] => rfl
    | i :: rest =>
      rw [dismissT]
      show (match (dismissL cs)[i]? with
            | some c => statusAt c rest
            | none => none) = _
      rw [ih i rest]
      rfl
  | nil =>
    rename_i i pos
    rw [show dismissL [] = [] from rfl]
    simp
  | cons c cs ihc ihcs =>
    rename_i i pos
    rw [dismissL]
    match i with
    | 0 =>
      simp only [List.getElem?_cons_zero]
      exact ihc pos
    | j + 1 =>
      simp only [List.getElem?_cons_succ]
      exact ihcs j pos

theorem updateAt_getElem? (f : TTree → TTree) :
    ∀ (cs : List TTree) (i j : Nat),
      (updateAt i f cs)[j]? = if j = i then (cs[j]?).map f else cs[j]? := by
  intro cs
  induction cs with
  | nil =>
    intro i j
    simp [updateAt]
  | cons c cs ih =>
    intro i j
    match i with
    | 0 =>
      rw [updateAt]
      match j with
      | 0 => simp
      | k + 1 => simp
    | m + 1 =>
      rw [updateAt]
      match j with
      | 0 => simp
      | k + 1 =>
        simp only [List.getElem?_cons_succ, ih m k]
        by_cases hk : k = m
        · simp [hk]
        · simp [hk]

theorem statusAt_dismissAt (path : List Nat) :
    ∀ (t : TTree) (pos : List Nat),
      statusAt t pos = some Status.DISMISSED →
      statusAt (dismissAt t path) pos = some Status.DISMISSED := by
  induction path with
  | nil =>
    intro t pos h
    show statusAt (dismissT t) pos = some Status.DISMISSED
    rw [statusAt_dismissT, h]
    rfl
  | cons i rest ih =>
    intro t pos h
    match t, pos with
    | .node r cs, [] => exact h
    | .node r cs, j :: ptl =>
      show (match (updateAt i (fun c => dismissAt c rest) cs)[j]? with
            | some c => statusAt c ptl
            | none => none) = some Status.DISMISSED
      rw [updateAt_getElem?]
      have hmem : (match cs[j]? with
            | some c => statusAt c ptl
            | none => none) = some Status.DISMISSED := h
      by_cases hj : j = i
      · rw [if_pos hj]
        match hcj : cs[j]? with
        | some c =>
          rw [hcj] at hmem
          exact ih c ptl hmem
        | none =>
          rw [hcj] at hmem
          exact absurd hmem (by simp)
      · rw [if_neg hj]
        exact hmem

/-- Concrete tree for the C5 counterexample: a single Active task. -/
def c5tree : TTree := .node { status := .ACTIVE } []

/-- C5 (counterexample): after a `dismiss` call the task is Dismissed, and a
subsequent `toggle_status` call moves it straight back to Active (the
else-branch of `toggle_status` fires for every non-Active status, Dismissed
included), so a sequence of toggle_status and dismiss calls does transition a
task from Dismissed to Active. -/
theorem C5_counterexample :
    (dismissT c5tree).fields.status = Status.DISMISSED ∧
      (toggleT [] (dismissT c5tree) true).2.fields.status = Status.ACTIVE := by
  decide

/-- C5 (amended): Dismissed is terminal only under `dismiss` itself — for
every sequence of dismiss calls on any task tree, no task transitions from
Dismissed to Active (nor to any other status).  `toggle_status`, however,
does move a Dismissed task back to Active, as the counterexample shows. -/
theorem C5_dismissed_stays (t : TTree) (paths : List (List Nat)) (pos : List Nat)
    (h : statusAt t pos = some Status.DISMISSED) :
    statusAt (paths.foldl dismissAt t) pos = some Status.DISMISSED := by
  induction paths generalizing t with
  | nil => exact h
  | cons p ps ih =>
    rw [List.foldl_cons]
    exact ih (dismissAt t p) (statusAt_dismissAt p t pos h)

/-- C5 witness: a tree whose child is Dismissed, hit by two further dismiss
calls (one at the root, one at the child), stays Dismissed at the child. -/
theorem C5_dismissed_stays_witness :
    statusAt (.node { status := .ACTIVE } [.node { status := .DISMISSED } []]) [0] =
        some Status.DISMISSED ∧
      statusAt ([[], [0]].foldl dismissAt
          (.node { status := .ACTIVE } [.node { status := .DISMISSED } []])) [0] =
        some Status.DISMISSED :=
  ⟨by decide, C5_dismissed_stays _ [[], [0]] [0] (by decide)⟩

/-!
## Due-date propagation (C6)

`Task2.due_date` setter (tasks2.py lines 116-134):

    self._date_due = value
    if not value or value.is_fuzzy():
        return
    for child in self.children:
        if (child.due_date
           and not child.due_date.is_fuzzy()
           and child.due_date > value):
            child.due_date = value
    if (self.parent
       and self.parent.due_date
       and self.parent.due_date.is_fuzzy()
       and self.parent.due_date < value):
        self.parent.due_date = value

The assignment `child.due_date = value` re-enters the setter on the child.
Because `value` is concrete at that point and the child's parent's due date
has just been set to `value` (not fuzzy), the nested call never fires the
parent branch, so the downward pass is the pure subtree map `clampSet`.  The
upward assignment `self.parent.due_date = value` re-enters the setter on the
parent, which clamps all of the parent's children (the focused subtree's root
has due date `value` and is left unchanged) and can continue up the chain;
the ancestors are threaded as a zipper of `Frame`s (innermost first). -/

/-- Ancestor frame for the due-date setter: the ancestor's own fields and its
children to the left and to the right of the focused child. -/
structure Frame where
  fields : TaskRec
  left : List TTree := []
  right : List TTree := []

/-- Guard of the child-clamping loop (tasks2.py lines 124-126): the child's
own due date is truthy, not fuzzy, and later than the new value. -/
def clampCond (td : Nat) (v : GDate) (c : TTree) : Bool :=
  c.fields.due.truthy && !c.fields.due.isFuzzy && dateLtB td v c.fields.due

/-- Guard of the parent branch (tasks2.py lines 130-133): the parent's due
date is truthy, fuzzy, and before the new value. -/
def raiseCond (td : Nat) (v : GDate) (p : TaskRec) : Bool :=
  p.due.truthy && p.due.isFuzzy && dateLtB td p.due v

mutual

/-- Nested setter call `child.due_date = value` for a concrete truthy value
whose parent's due date already equals that value: store the value and clamp
the children; the parent branch of the nested call cannot fire. -/
def clampSet (td : Nat) (v : GDate) : TTree → TTree
  | .node r cs => .node { r with due := v } (clampKids td v cs)

/-- Embedding of the `for child in self.children` clamping loop. -/
def clampKids (td : Nat) (v : GDate) : List TTree → List TTree
  | [] => []
  | c :: cs => (if clampCond td v c then clampSet td v c else c) :: clampKids td v cs

end

/-- Embedding of the upward chain of parent assignments: each raised ancestor
stores the value, clamps its other children, and hands the assignment on to
its own parent when that parent's due date is truthy, fuzzy and before the
value. -/
def raiseChain (td : Nat) (v : GDate) : List Frame → List Frame
  | [] => []
  | f :: rest =>
    if raiseCond td v f.fields then
      { fields := { f.fields with due := v },
        left := clampKids td v f.left,
        right := clampKids td v f.right } :: raiseChain td v rest
    else
      f :: rest

/-- Embedding of the `Task2.due_date` setter on the subtree `t` with ancestor
zipper `ctx` (innermost ancestor first). -/
def set_due_date (td : Nat) (v : GDate) (t : TTree) (ctx : List Frame) :
    TTree × List Frame :=
  match t with
  | .node r cs =>
    if !v.truthy || v.isFuzzy then
      (.node { r with due := v } cs, ctx)
    else
      (.node { r with due := v } (clampKids td v cs), raiseChain td v ctx)

/-- Due date of the task at a given child-index path of a subtree. -/
def dueAt : TTree → List Nat → Option GDate
  | .node r _, [] => some r.due
  | .node _ cs, i :: rest =>
    match cs[i]? with
    | some c => dueAt c rest
    | none => none

theorem clampSet_due (td : Nat) (v : GDate) (c : TTree) :
    (clampSet td v c).fields.due = v := by
  match c with
  | .node r cs => rfl

theorem clampKids_due_map (td : Nat) (v : GDate) :
    ∀ cs : List TTree,
      (clampKids td v cs).map (fun c => c.fields.due) =
        cs.map (fun c => if clampCond td v c then v else c.fields.due)
  | [] => rfl
  | c :: cs => by
    rw [clampKids, List.map_cons, List.map_cons, clampKids_due_map td v cs]
    by_cases hc : clampCond td v c
    · simp [hc, clampSet_due]
    · simp [hc]

theorem clampKids_getElem?_of_not (td : Nat) (v : GDate) :
    ∀ (cs : List TTree) (j : Nat) (c : TTree),
      cs[j]? = some c → clampCond td v c = false →
      (clampKids td v cs)[j]? = some c := by
  intro cs
  induction cs with
  | nil =>
    intro j c hj _
    simp at hj
  | cons d ds ih =>
    intro j c hj hcond
    match j with
    | 0 =>
      simp only [List.getElem?_cons_zero, Option.some_inj] at hj
      subst hj
      rw [clampKids]
      simp only [List.getElem?_cons_zero, Option.some_inj]
      simp [hcond]
    | k + 1 =>
      simp only [List.getElem?_cons_succ] at hj
      rw [clampKids]
      simp only [List.getElem?_cons_succ]
      exact ih k c hj hcond

/-- Concrete tree for the C6 counterexample: a root with child due on day 5
and grandchild due on day 20. -/
def c6tree : TTree :=
  .node { due := .noDate }
    [.node { due := .concrete 5 } [.node { due := .concrete 20 } []]]

/-- C6 (counterexample): setting the root's due date to day 10 leaves the
grandchild's due date at day 20 even though it is concrete and later than the
new value — the clamping loop recurses only into children that are themselves
clamped, and the child (due day 5) is not. -/
theorem C6_counterexample :
    dueAt (set_due_date 0 (.concrete 10) c6tree []).1 [0, 0] = some (GDate.concrete 20) ∧
      (GDate.concrete 20).isFuzzy = false ∧
      dateLtB 0 (.concrete 10) (.concrete 20) = true ∧
      GDate.concrete 20 ≠ GDate.concrete 10 := by decide

/-- C6 (amended): setting a task's due date to a fuzzy or absent value stores
it and propagates nothing.  Setting it to a concrete value stores it; clamps
every direct child whose own due date is truthy, not fuzzy and later down to
the new value, recursing only beneath clamped children (a child that is not
clamped is left entirely untouched, even if a deeper descendant has a later
concrete due date); and, when the task has a parent whose due date is truthy,
fuzzy and before the new value under the fuzzy-date ordering, raises the
parent's due date to the new value. -/
theorem C6_due_propagation (td d : Nat) (r : TaskRec) (cs : List TTree)
    (ctx : List Frame) :
    (∀ v : GDate, v.truthy = false ∨ v.isFuzzy = true →
        set_due_date td v (.node r cs) ctx = (.node { r with due := v } cs, ctx)) ∧
    ((set_due_date td (.concrete d) (.node r cs) ctx).1.fields.due = .concrete d ∧
     (set_due_date td (.concrete d) (.node r cs) ctx).1.kids.map (fun c => c.fields.due) =
       cs.map (fun c =>
         if clampCond td (.concrete d) c then .concrete d else c.fields.due) ∧
     (∀ (j : Nat) (c : TTree), cs[j]? = some c →
        clampCond td (.concrete d) c = false →
        (set_due_date td (.concrete d) (.node r cs) ctx).1.kids[j]? = some c) ∧
     (∀ (f : Frame) (rest : List Frame), ctx = f :: rest →
        raiseCond td (.concrete d) f.fields = true →
        ((set_due_date td (.concrete d) (.node r cs) ctx).2.head?).map
            (fun g => g.fields.due) = some (.concrete d)) ∧
     (∀ (f : Frame) (rest : List Frame), ctx = f :: rest →
        raiseCond td (.concrete d) f.fields = false →
        (set_due_date td (.concrete d) (.node r cs) ctx).2 = ctx)) := by
  constructor
  · intro v hv
    rw [set_due_date]
    rcases hv with hv | hv <;> simp [hv]
  · have hconc : set_due_date td (.concrete d) (.node r cs) ctx =
        (.node { r with due := .concrete d } (clampKids td (.concrete d) cs),
          raiseChain td (.concrete d) ctx) := by
      rw [set_due_date]
      simp [GDate.truthy, GDate.isFuzzy]
    refine ⟨by rw [hconc]; rfl, ?_, ?_, ?_, ?_⟩
    · rw [hconc]
      exact clampKids_due_map td (.concrete d) cs
    · intro j c hj hcond
      rw [hconc]
      exact clampKids_getElem?_of_not td (.concrete d) cs j c hj hcond
    · intro f rest hctx hraise
      rw [hconc, hctx, raiseChain, if_pos hraise]
      rfl
    · intro f rest hctx hraise
      rw [hconc, hctx, raiseChain, if_neg (by simp [hraise])]

/-- C6 witness: the amended due-date propagation evaluated on a concrete
configuration — child due day 30 clamped to day 20, second child untouched at
day 5, fuzzy parent (soon, i.e. reference day 0 plus 15) raised to day 20. -/
theorem C6_due_propagation_witness :
    (set_due_date 0 (.concrete 20)
        (.node { due := .noDate }
          [.node { due := .concrete 30 } [], .node { due := .concrete 5 } []])
        [{ fields := { due := .soon } }]).1.kids.map (fun c => c.fields.due) =
      [GDate.concrete 20, GDate.concrete 5] ∧
    ((set_due_date 0 (.concrete 20)
        (.node { due := .noDate }
          [.node { due := .concrete 30 } [], .node { due := .concrete 5 } []])
        [{ fields := { due := .soon } }]).2.head?).map (fun g => g.fields.due) =
      some (GDate.concrete 20) := by
  have h := C6_due_propagation 0 20 { due := .noDate }
    [.node { due := .concrete 30 } [], .node { due := .concrete 5 } []]
    [{ fields := { due := .soon } }]
  refine ⟨?_, ?_⟩
  · rw [h.2.2.1]
    decide
  · exact h.2.2.2.2.1 { fields := { due := .soon } } [] rfl (by decide)

/-!
## Tag filtering (C7, C8)

`TaskStore.filter` (tasks2.py lines 416-457).  The inner `filter_tag` walks
`self.data` — the top-level (root) tasks only — and collects, for each task,
the names of its attached tags plus the names of those tags' registered
children, then matches the requested name against that collection:

    for t in self.data:
        names = [tag.name for tag in t.tags]
        for tag in t.tags:
            for child in tag.children:
                names.append(child.name)
        if tag_name in names:
            output.append(t)

For a list argument the per-name results are intersected, starting from an
empty accumulator:

    output = []
    for t in arg:
        output = list(set(output) & set(filter_tag(t)))
-/

/-- Names against which the tag filter matches a task: the names of the
task's attached tags followed by the names of those tags' children. -/
def tagMatchNames (tags : List GTag) : List Str :=
  tags.map GTag.name ++ tags.flatMap (fun tg => tg.children.map GTag.name)

/-- Embedding of `filter_tag` (tasks2.py lines 419-435): the top-level tasks
whose match-name collection contains the requested name, in store order. -/
def filter_tag (data : List TTree) (tag_name : Str) : List TTree :=
  data.filter (fun t => (tagMatchNames t.fields.tags).contains tag_name)

/-- Embedding of the list branch of `TaskStore.filter` for `Filter.TAG`
(tasks2.py lines 448-454).  The Python set intersection is keyed by object
identity; tasks are identified by their unique id. -/
def filter_tag_list (data : List TTree) (names : List Str) : List TTree :=
  names.foldl
    (fun output n =>
      output.filter (fun t => (filter_tag data n).any (fun u => u.fields.id == t.fields.id)))
    []

/-- Parent tag named `p` with one registered child tag named `c`. -/
def tagP : GTag := .node 1 ['p'] [.node 2 ['c'] []]

/-- Child tag named `c` (registered under `tagP`). -/
def tagC : GTag := .node 2 ['c'] []

/-- Root task carrying only the child tag `c`. -/
def c7task1 : TTree := .node { id := 10, tags := [tagC] } []

/-- Root task carrying only the parent tag `p`. -/
def c7task2 : TTree := .node { id := 11, tags := [tagP] } []

/-- C7 (counterexample): a task carrying only the child tag `c` is NOT
returned by `filter(Tag, "p")` although `c` is a registered child-tag of the
literal tag `p`, so the claimed hierarchy expansion fails; conversely a task
carrying only the parent tag `p` IS returned by `filter(Tag, "c")` although
neither the literal tag `c` nor any of its (zero) child-tags is attached to
it.  The code expands each attached tag downwards to its children's names
instead of expanding the queried tag. -/
theorem C7_counterexample :
    tagP.name = ['p'] ∧ tagC ∈ tagP.children ∧ tagC ∈ c7task1.fields.tags ∧
      filter_tag [c7task1] ['p'] = [] ∧
      c7task2.fields.tags = [tagP] ∧ tagP.name ≠ ['c'] ∧ tagC.children = [] ∧
      filter_tag [c7task2] ['c'] = [c7task2] :=
  ⟨rfl, List.mem_cons_self tagC [], List.mem_cons_self tagC [],
    rfl, rfl, by decide, rfl, rfl⟩

/-- C7 (amended): for every store and tag name, `filter(Tag, name)` returns
exactly the tasks of the top-level data sequence that carry a tag with the
given name, or carry a tag one of whose registered child-tags has the given
name (so the expansion runs from each attached tag down to its children, not
from the queried tag; tasks carrying only a child of the queried tag do not
match). -/
theorem C7_filter_tag_mem (data : List TTree) (name : Str) (t : TTree) :
    t ∈ filter_tag data name ↔
      t ∈ data ∧ ∃ tg, tg ∈ t.fields.tags ∧
        (tg.name = name ∨ ∃ c, c ∈ tg.children ∧ c.name = name) := by
  rw [filter_tag, List.mem_filter]
  refine and_congr_right fun _ => ?_
  rw [show (tagMatchNames t.fields.tags).contains name =
        (tagMatchNames t.fields.tags).elem name from rfl, List.elem_iff]
  rw [tagMatchNames]
  simp only [List.mem_append, List.mem_map, List.mem_flatMap]
  constructor
  · rintro (⟨tg, htg, hn⟩ | ⟨tg, htg, c, hc, hn⟩)
    · exact ⟨tg, htg, Or.inl hn⟩
    · exact ⟨tg, htg, Or.inr ⟨c, hc, hn⟩⟩
  · rintro ⟨tg, htg, hn | ⟨c, hc, hn⟩⟩
    · exact Or.inl ⟨tg, htg, hn⟩
    · exact Or.inr ⟨tg, htg, c, hc, hn⟩

/-- C8: the multi-tag filter always returns the empty list — the accumulator
starts empty and is intersected with each per-name result, so the
intersection of the per-name filter results is never produced (unless it is
itself empty). -/
theorem C8_filter_tag_list_empty (data : List TTree) (names : List Str) :
    filter_tag_list data names = [] := by
  rw [filter_tag_list]
  have h : ∀ (ns : List Str) (acc : List TTree), acc = [] →
      ns.foldl
        (fun output n =>
          output.filter (fun t => (filter_tag data n).any (fun u => u.fields.id == t.fields.id)))
        acc = [] := by
    intro ns
    induction ns with
    | nil => intro acc hacc; exact hacc
    | cons n ns ih =>
      intro acc hacc
      rw [List.foldl_cons, hacc]
      exact ih _ rfl
  exact h names [] rfl

/-- C8 (supporting fact for the failing input): with one root task tagged `a`,
the single-name filter finds the task, but the list filter for `["a"]`
returns the empty list instead of the claimed intersection `[task]`. -/
theorem C8_failing_input :
    filter_tag [.node { id := 1, tags := [.node 5 ['a'] []] } []] ['a'] =
        [.node { id := 1, tags := [.node 5 ['a'] []] } []] ∧
      filter_tag_list [.node { id := 1, tags := [.node 5 ['a'] []] } []] [['a']] = [] :=
  ⟨rfl, rfl⟩

/-!
## Tag removal (C9)

`Task2.remove_tag` (tasks2.py lines 173-182):

    for t in self.tags:
        if t.name == tag_name:
            self.tags.remove(t)
            (self.content.replace(f'{tag_name}\n\n', '')
                         .replace(f'{tag_name},', '')
                         .replace(f'{tag_name}', ''))
    for child in self.children:
        child.remove_tag(tag_name)

The replace chain is an expression statement: its result is never assigned to
`self.content`, so the task content is NOT modified by the source.  The `for`
loop iterates by index over the mutating list (`list.remove` deletes the
first element equal to the matched one; tag objects compare by identity,
which the value embedding renders as structural equality, since store tags
are uniquely identified). -/

mutual

/-- Structural equality of tags (embeds Python object identity for the store
tags, which are uniquely identified). -/
def GTag.beq : GTag → GTag → Bool
  | .node i n cs, .node j m ds => i == j && n == m && GTag.beqL cs ds

/-- Structural equality of tag lists. -/
def GTag.beqL : List GTag → List GTag → Bool
  | [], [] => true
  | c :: cs, d :: ds => GTag.beq c d && GTag.beqL cs ds
  | _, _ => false

end

/-- Embedding of Python's `list.remove(x)`: delete the first element equal to
`x` (no-op when none is). -/
def eraseFirstTag (x : GTag) : List GTag → List GTag
  | [] => []
  | t :: ts => if GTag.beq t x then ts else t :: eraseFirstTag x ts

/-- Embedding of the `for t in self.tags` loop of `remove_tag`: the iterator
index advances by one each step over the list as currently mutated, removing
every matched tag.  `fuel` bounds the number of iterations; the caller passes
the initial list length, which suffices because the index grows by one per
step and the list never grows. -/
def remove_tag_loop (tag_name : Str) : Nat → Nat → List GTag → List GTag
  | 0, _, tags => tags
  | fuel + 1, i, tags =>
    if h : i < tags.length then
      let t := tags.get ⟨i, h⟩
      if t.name == tag_name then
        remove_tag_loop tag_name fuel (i + 1) (eraseFirstTag t tags)
      else
        remove_tag_loop tag_name fuel (i + 1) tags
    else
      tags

/-- Result of the replace chain of `remove_tag` (tasks2.py lines 177-179):
strip `tag_name` followed by two newlines, then `tag_name` followed by a
comma, then the bare `tag_name`.  The source computes this value and discards
it. -/
def remove_tag_strip (tag_name content : Str) : Str :=
  pyReplace tag_name []
    (pyReplace (tag_name ++ [',']) []
      (pyReplace (tag_name ++ ['\n', '\n']) [] content))

mutual

/-- Embedding of `Task2.remove_tag`: remove every attached tag with the given
name and recurse into the children.  The content is unchanged because the
replace chain's result is never assigned in the source. -/
def remove_tag (tag_name : Str) : TTree → TTree
  | .node r cs =>
    .node { r with tags := remove_tag_loop tag_name r.tags.length 0 r.tags }
      (remove_tagL tag_name cs)

/-- Tag removal cascaded over a list of subtrees. -/
def remove_tagL (tag_name : Str) : List TTree → List TTree
  | [] => []
  | c :: cs => remove_tag tag_name c :: remove_tagL tag_name cs

end

/-- Tag named `@a` for the C9 failing input. -/
def c9tag : GTag := .node 1 ['@', 'a'] []

/-- Task tagged `@a` with content `@a, milk` and one likewise-tagged child
with content `@a, m`. -/
def c9task : TTree :=
  .node { id := 1, tags := [c9tag], content := ['@', 'a', ',', ' ', 'm', 'i', 'l', 'k'] }
    [.node { id := 2, tags := [c9tag], content := ['@', 'a', ',', ' ', 'm'] } []]

/-- C9: `remove_tag('@a')` on the failing input removes the attached tag from
the task and (cascading) from its child, but leaves both contents unchanged —
the replace chain that the claim says strips the tag token is computed and
discarded (its result is never assigned to `self.content`); had it been
assigned, the content would have become ` milk`. -/
theorem C9_remove_tag_keeps_content :
    (remove_tag ['@', 'a'] c9task).fields.tags = [] ∧
      (remove_tag ['@', 'a'] c9task).fields.content =
        ['@', 'a', ',', ' ', 'm', 'i', 'l', 'k'] ∧
      ((remove_tag ['@', 'a'] c9task).kids.map fun c => c.fields.tags) = [[]] ∧
      ((remove_tag ['@', 'a'] c9task).kids.map fun c => c.fields.content) =
        [['@', 'a', ',', ' ', 'm']] ∧
      remove_tag_strip ['@', 'a'] ['@', 'a', ',', ' ', 'm', 'i', 'l', 'k'] =
        [' ', 'm', 'i', 'l', 'k'] ∧
      ([' ', 'm', 'i', 'l', 'k'] : Str) ≠ ['@', 'a', ',', ' ', 'm', 'i', 'l', 'k'] :=
  ⟨rfl, rfl, rfl, rfl, rfl, by decide⟩

/-!
## Store state and structural operations (C2)

`TaskStore` (tasks2.py lines 213-247, 381-413) keeps `data`, the ordered
top-level sequence, and `lookup`, the id-keyed map over all tasks (both from
the generic base store).  Only the structural fields (parent back-reference
and children identifiers) matter for the tree invariant, so a task is
embedded as a `StoreNode`; `uuid4()` becomes a fresh-counter draw. -/

/-- Python exceptions surfaced by the embedded operations. -/
inductive PyErr where
  | keyError
  | attributeError (name : String)
  | nameError (name : String)
  | ioError
deriving DecidableEq, Repr

/-- Structural fields of a stored task: parent back-reference and children,
by identifier. -/
structure StoreNode where
  parent : Option Nat := none
  children : List Nat := []
deriving DecidableEq, Repr

/-- State of a `TaskStore`: fresh-identifier counter, top-level sequence and
id-keyed lookup map (an association list in insertion order). -/
structure TaskStoreSt where
  nextId : Nat := 0
  data : List Nat := []
  lookup : List (Nat × StoreNode) := []
deriving DecidableEq, Repr

/-- Value of the id-keyed lookup map at a key. -/
def lookupGet (l : List (Nat × StoreNode)) (k : Nat) : Option StoreNode :=
  match l with
  | [] => none
  | kv :: rest => if kv.1 = k then some kv.2 else lookupGet rest k

/-- Update of the node stored under a key (no-op for an absent key). -/
def lookupUpd (k : Nat) (f : StoreNode → StoreNode) :
    List (Nat × StoreNode) → List (Nat × StoreNode)
  | [] => []
  | kv :: rest =>
    if kv.1 = k then (kv.1, f kv.2) :: rest else kv :: lookupUpd k f rest

/-- Embedding of Python's `list.remove(x)` on an identifier list, with the
`ValueError` for an absent element swallowed (as `TaskStore.parent` does). -/
def eraseFirstNat (x : Nat) : List Nat → List Nat
  | [] => []
  | y :: ys => if y = x then ys else y :: eraseFirstNat x ys

/-- Modelled from the spec: `BaseStore.add` of `GTG/core/base_store.py` is not
under src/.  Spec section 4.1: if `parent_id` is absent, append the entity to
`data` and insert it into `lookup`; if present, insert into `lookup`, append
to `lookup[parent_id].children` and set the entity's parent back-reference
(without appending to `data`); fail with NotFound (`KeyError`) when
`parent_id` is given but unknown. -/
def TaskStore.add (s : TaskStoreSt) (tid : Nat) (pid? : Option Nat) :
    Except PyErr TaskStoreSt :=
  match pid? with
  | none =>
    .ok { s with data := s.data ++ [tid], lookup := s.lookup ++ [(tid, {})] }
  | some pid =>
    match lookupGet s.lookup pid with
    | none => .error .keyError
    | some _ =>
      let lk :=
        lookupUpd pid (fun n => { n with children := n.children ++ [tid] })
          (s.lookup ++ [(tid, { parent := some pid })])
      .ok { s with lookup := lk }

/-- Embedding of `TaskStore.new` (tasks2.py lines 236-246): draw a fresh
identifier; with a parent, insert via `add`; without one, append to `data`
and `lookup` directly.  The title plays no structural role. -/
def TaskStore.new (s : TaskStoreSt) (_title : Str) (pid? : Option Nat) :
    Except PyErr (TaskStoreSt × Nat) :=
  let tid := s.nextId
  let s0 := { s with nextId := s.nextId + 1 }
  match pid? with
  | some pid => (TaskStore.add s0 tid (some pid)).map (fun s1 => (s1, tid))
  | none =>
    .ok ({ s0 with data := s0.data ++ [tid], lookup := s0.lookup ++ [(tid, {})] },
      tid)

/-- Embedding of `TaskStore.parent` (tasks2.py lines 381-400).  The failure
state is returned alongside the error: the item is looked up first (raising
`KeyError` with the store untouched when unknown), then removed from `data`
(swallowing the `ValueError` when it is not a root), and only then is the
parent looked up — so an unknown parent raises `KeyError` AFTER the item has
already been removed from `data`. -/
def TaskStore.parent (s : TaskStoreSt) (item_id parent_id : Nat) :
    TaskStoreSt × Option PyErr :=
  match lookupGet s.lookup item_id with
  | none => (s, some .keyError)
  | some _ =>
    let s1 := { s with data := eraseFirstNat item_id s.data }
    match lookupGet s1.lookup parent_id with
    | none => (s1, some .keyError)
    | some _ =>
      let lk :=
        lookupUpd parent_id (fun n => { n with children := n.children ++ [item_id] })
          (lookupUpd item_id (fun n => { n with parent := some parent_id }) s1.lookup)
      ({ s1 with lookup := lk }, none)

/-- Embedding of `TaskStore.unparent` (tasks2.py lines 403-413): scan the
parent's children; on the first match clear the child's parent reference,
append it to `data` and remove it from the children list; raise `KeyError`
(store untouched) when the parent is unknown or the item is not among its
children. -/
def TaskStore.unparent (s : TaskStoreSt) (item_id parent_id : Nat) :
    TaskStoreSt × Option PyErr :=
  match lookupGet s.lookup parent_id with
  | none => (s, some .keyError)
  | some pnode =>
    if pnode.children.contains item_id then
      let lk :=
        lookupUpd parent_id
          (fun n => { n with children := eraseFirstNat item_id n.children })
          (lookupUpd item_id (fun n => { n with parent := none }) s.lookup)
      ({ s with data := s.data ++ [item_id], lookup := lk }, none)
    else
      (s, some .keyError)

/-- Total number of occurrences of an identifier across all children lists. -/
def childCount (s : TaskStoreSt) (tid : Nat) : Nat :=
  (s.lookup.map (fun kv => kv.2.children.count tid)).sum

/-- The tree invariant of the claim: every task in `lookup` occurs exactly
once in `data` (when it has no parent) or exactly once in its parent's
children list (when it has one), and nowhere else. -/
def invariantB (s : TaskStoreSt) : Bool :=
  s.lookup.all (fun kv =>
    match kv.2.parent with
    | none => s.data.count kv.1 == 1 && childCount s kv.1 == 0
    | some p =>
      s.data.count kv.1 == 0 && childCount s kv.1 == 1 &&
        ((lookupGet s.lookup p).map (fun n => n.children.count kv.1)).getD 0 == 1)

/-- Store holding one root task (id 0), as produced by a single `new`. -/
def c2store : TaskStoreSt := { nextId := 1, data := [0], lookup := [(0, {})] }

/-- C2: a failing `parent(item, unknown_id)` call breaks the tree invariant.
`new` produces a store satisfying the invariant; `parent` then removes the
task from `data` before discovering that the parent id is unknown, so the
`KeyError` leaves a store in which the task is still in `lookup` but is
reachable neither from `data` nor from any children list. -/
theorem C2_parent_breaks_invariant :
    TaskStore.new {} [] none = Except.ok (c2store, 0) ∧
      invariantB c2store = true ∧
      (TaskStore.parent c2store 0 99).2 = some PyErr.keyError ∧
      lookupGet (TaskStore.parent c2store 0 99).1.lookup 0 = some {} ∧
      (TaskStore.parent c2store 0 99).1.data = [] ∧
      invariantB (TaskStore.parent c2store 0 99).1 = false :=
  ⟨rfl, rfl, rfl, rfl, rfl, rfl⟩

/-!
## Tag store (C3)

`TagStore` (tags2.py lines 64-107, 190-194).  The id-keyed `lookup` dict of
the base store holds UUID keys, while `TagStore.new` queries it with the
normalized name string — a key of a different type, which a Python dict never
matches against a UUID key.  Dict keys are therefore embedded as a sum of
identifier keys and string keys. -/

/-- Key of a Python dict that may hold identifier keys and string keys. -/
inductive DKey where
  | idK (n : Nat)
  | strK (s : Str)
deriving DecidableEq, Repr

/-- Fields of a stored tag. -/
structure TagRecS where
  name : Str
  parent : Option Nat := none
  children : List Nat := []
deriving DecidableEq, Repr

/-- State of a `TagStore`: fresh-identifier counter, top-level sequence, the
base store's `lookup` dict (keyed by identifier in normal operation), the
name index `lookup_names`, and the tag records by identifier. -/
structure TagStoreSt where
  nextId : Nat := 0
  data : List Nat := []
  lookup : List (DKey × Nat) := []
  lookup_names : List (Str × Nat) := []
  recs : List (Nat × TagRecS) := []
deriving DecidableEq, Repr

/-- Value of a `DKey`-keyed dict at a key. -/
def dkeyGet (l : List (DKey × Nat)) (k : DKey) : Option Nat :=
  match l with
  | [] => none
  | kv :: rest => if kv.1 = k then some kv.2 else dkeyGet rest k

/-- Python dict assignment on the name index: replace the value of an
existing key in place, else append. -/
def strDictSet (k : Str) (v : Nat) : List (Str × Nat) → List (Str × Nat)
  | [] => [(k, v)]
  | kv :: rest =>
    if kv.1 = k then (k, v) :: rest else kv :: strDictSet k v rest

/-- Update of a tag record under a key (no-op for an absent key). -/
def recsUpd (k : Nat) (f : TagRecS → TagRecS) :
    List (Nat × TagRecS) → List (Nat × TagRecS)
  | [] => []
  | kv :: rest =>
    if kv.1 = k then (kv.1, f kv.2) :: rest else kv :: recsUpd k f rest

/-- Value of the record table at a key. -/
def recsGet (l : List (Nat × TagRecS)) (k : Nat) : Option TagRecS :=
  match l with
  | [] => none
  | kv :: rest => if kv.1 = k then some kv.2 else recsGet rest k

/-- Embedding of `TagStore.add` (tags2.py lines 190-194): the base store's
add — modelled from the spec, section 4.1, since `GTG/core/base_store.py` is
not under src/ — followed by the name-index assignment
`self.lookup_names[item.name] = item`. -/
def TagStore.add (s : TagStoreSt) (tid : Nat) (nm : Str) (pid? : Option Nat) :
    Except PyErr TagStoreSt :=
  let withName (s' : TagStoreSt) : TagStoreSt :=
    { s' with lookup_names := strDictSet nm tid s'.lookup_names }
  match pid? with
  | none =>
    .ok (withName { s with
      data := s.data ++ [tid],
      lookup := s.lookup ++ [(.idK tid, tid)],
      recs := s.recs ++ [(tid, { name := nm })] })
  | some pid =>
    match dkeyGet s.lookup (.idK pid) with
    | none => .error .keyError
    | some _ =>
      let rc :=
        recsUpd pid (fun r => { r with children := r.children ++ [tid] })
          (s.recs ++ [(tid, { name := nm, parent := some pid })])
      .ok (withName { s with lookup := s.lookup ++ [(.idK tid, tid)], recs := rc })

/-- Embedding of `TagStore.new` (tags2.py lines 90-107): normalize the name
by stripping one leading `@`; query the id-keyed `lookup` dict with the name
string (`self.lookup[name]`); on the inevitable `KeyError`, draw a fresh
identifier and either delegate to `add` (with a parent) or append to `data`
and `lookup` directly (without one). -/
def TagStore.new (s : TagStoreSt) (name : Str) (pid? : Option Nat) :
    Except PyErr (TagStoreSt × Nat) :=
  let nm := match name with
    | '@' :: rest => rest
    | _ => name
  match dkeyGet s.lookup (.strK nm) with
  | some tagId => .ok (s, tagId)
  | none =>
    let tid := s.nextId
    let s0 := { s with nextId := s.nextId + 1 }
    match pid? with
    | some pid => (TagStore.add s0 tid nm (some pid)).map (fun s1 => (s1, tid))
    | none =>
      .ok ({ s0 with
        data := s0.data ++ [tid],
        lookup := s0.lookup ++ [(.idK tid, tid)],
        recs := s0.recs ++ [(tid, { name := nm })] }, tid)

/-- Store after `new('@a')` on an empty tag store. -/
def c3store1 : TagStoreSt :=
  { nextId := 1, data := [0], lookup := [(.idK 0, 0)], recs := [(0, { name := ['a'] })] }

/-- Store after a second `new('@a')`. -/
def c3store2 : TagStoreSt :=
  { nextId := 2, data := [0, 1], lookup := [(.idK 0, 0), (.idK 1, 1)],
    recs := [(0, { name := ['a'] }), (1, { name := ['a'] })] }

/-- C3: `new` is not idempotent.  Two `new('@a')` calls on an empty store
return two distinct tags, and the store ends up holding two tags both named
`a` — the existence check `self.lookup[name]` queries the id-keyed dict with
the name string, never finds anything, and so always allocates.  (The name
index `lookup_names`, which `find` uses, is not even consulted or updated on
this path.) -/
theorem C3_new_not_idempotent :
    TagStore.new {} ['@', 'a'] none = Except.ok (c3store1, 0) ∧
      TagStore.new c3store1 ['@', 'a'] none = Except.ok (c3store2, 1) ∧
      (1 : Nat) ≠ 0 ∧
      recsGet c3store2.recs 0 = some { name := ['a'] } ∧
      recsGet c3store2.recs 1 = some { name := ['a'] } ∧
      c3store2.data = [0, 1] :=
  ⟨rfl, rfl, by decide, rfl, rfl, rfl⟩

/-!
## Backup rotation (C10)

`Datastore2.write_backups` (datastore2.py lines 168-201).  The class body
(lines 40-43) defines only the attribute `BACKUPS_NUMBER = 7`; the method's
first statement reads `self.BACKUPS`, and its second uses the local name
`filepath` although the parameter is called `path`.  Attribute access is
embedded through the class attribute table, and the filesystem as a map from
path to contents. -/

/-- Class attributes of `Datastore2` (datastore2.py lines 40-43). -/
def datastore2Attrs : List (String × Nat) := [("BACKUPS_NUMBER", 7)]

/-- Python attribute access `self.<attr>` on a `Datastore2`: `AttributeError`
for a name the class does not define. -/
def dsGetattr (attr : String) : Except PyErr Nat :=
  match datastore2Attrs.find? (fun kv => kv.1 == attr) with
  | some kv => .ok kv.2
  | none => .error (.attributeError attr)

/-- A filesystem: a map from path to file contents. -/
abbrev FileSys := List (String × String)

/-- Contents of a file, when present. -/
def fsGet (fs : FileSys) (p : String) : Option String :=
  match fs with
  | [] => none
  | kv :: rest => if kv.1 = p then some kv.2 else fsGet rest p

/-- Write (create or overwrite) a file. -/
def fsPut (fs : FileSys) (p : String) (contents : String) : FileSys :=
  match fs with
  | [] => [(p, contents)]
  | kv :: rest => if kv.1 = p then (p, contents) :: rest else kv :: fsPut rest p contents

/-- Delete a file, when present. -/
def fsDel (fs : FileSys) (p : String) : FileSys :=
  match fs with
  | [] => []
  | kv :: rest => if kv.1 = p then rest else kv :: fsDel rest p

/-- `shutil.move`: rename a file (no-op when the source is absent; the caller
guards on existence). -/
def fsMove (fs : FileSys) (src dst : String) : FileSys :=
  match fsGet fs src with
  | none => fs
  | some c => fsPut (fsDel fs src) dst c

/-- `shutil.copy`: copy a file; `IOError` when the source is absent. -/
def fsCopy (fs : FileSys) (src dst : String) : Except PyErr FileSys :=
  match fsGet fs src with
  | none => .error .ioError
  | some c => .ok (fsPut fs dst c)

/-- Embedding of `Datastore2.get_backup_name` (datastore2.py lines 159-165):
split off the final path component, append `.bak.<i>` when `i` is truthy
(note: `if i` is falsy for both `None` and `0`), and place the file in the
sibling `backup/` directory. -/
def get_backup_name (path : String) (i : Option Nat) : String :=
  let comps := path.splitOn "/"
  let dirname := String.intercalate "/" comps.dropLast
  let filename := comps.getLastD ""
  let backup_file := match i with
    | some k => if k ≠ 0 then s!"{filename}.bak.{k}" else filename
    | none => filename
  String.intercalate "/" [dirname, "backup", backup_file]

/-- Embedding of the `while current_backup > 0` rotation loop (datastore2.py
lines 182-189): shift each existing generation `k-1` up to `k`, from the
highest slot downwards. -/
def cycleBackups (backup_name : String) : Nat → FileSys → FileSys
  | 0, fs => fs
  | n + 1, fs =>
    let older := s!"{backup_name}.bak.{n + 1}"
    let newer := s!"{backup_name}.bak.{n}"
    let fs' := if (fsGet fs newer).isSome then fsMove fs newer older else fs
    cycleBackups backup_name n fs'

/-- Embedding of `Datastore2.write_backups` (datastore2.py lines 168-201).
The first statement reads `self.BACKUPS`, which the class does not define
(only `BACKUPS_NUMBER` exists), so every call raises `AttributeError` there;
the second statement would likewise fault on the undefined local name
`filepath`.  The unreachable remainder — directory creation (a no-op in this
flat file model), the rotation loop, the fresh `.bak.0` copy and the daily
snapshot — is carried for fidelity. -/
def write_backups (fs : FileSys) (_path : String) (today : String) :
    Except PyErr FileSys := do
  let current_backup ← dsGetattr "BACKUPS"
  let filepath ← (Except.error (PyErr.nameError "filepath") : Except PyErr String)
  let backup_name := get_backup_name filepath none
  let fs1 := cycleBackups backup_name current_backup fs
  let fs2 ← fsCopy fs1 filepath s!"{backup_name}.bak.0"
  let daily := s!"{backup_name}.{today}.bak"
  let fs3 ← if (fsGet fs2 daily).isSome then pure fs2 else fsCopy fs2 filepath daily
  pure fs3

/-- C10: every call of `write_backups` raises `AttributeError` on its first
statement (`self.BACKUPS` — the class defines only `BACKUPS_NUMBER`), so no
backup generation is ever rotated or written, for any filesystem, path and
day. -/
theorem C10_write_backups_raises (fs : FileSys) (path today : String) :
    write_backups fs path today = Except.error (PyErr.attributeError "BACKUPS") := rfl
